import Mathlib


/-! Embedding of the working-day calculator in
`src/components/ConsentCalculator.tsx`.

Dates are modelled as `Int` day numbers (days since 1970-01-01).  Every
date reaching the calculator comes from an HTML `<input type="date">`
value parsed by `new Date("yyyy-mm-dd")`, i.e. a timestamp at an exact
midnight, a multiple of 86400000 ms; `date-fns.addDays` then keeps that
alignment under the spec's naive-calendar (no timezone) semantics, so a
day number `d` stands for the timestamp `d * 86400000`, and
`setHours(0,0,0,0)` normalisation is the identity. -/

/-- Embeds `date-fns.isWeekend`: JS `getDay()` is 0 = Sunday, 6 = Saturday;
1970-01-01 is a Thursday (`getDay` = 4). -/
def isWeekend (d : Int) : Bool :=
  (d + 4).emod 7 = 0 || (d + 4).emod 7 = 6

/-- Embeds `isWorkingDay` (ConsentCalculator.tsx:213-219): false on a weekend,
otherwise true unless the date appears in the loaded `nonWorkingDays`
list.  The christmas-shutdown window is *not* consulted here. -/
def isWorkingDay (hs : List Int) (d : Int) : Bool :=
  if isWeekend d then false
  else !(hs.any (fun h => h == d))

/-- Civil-calendar conversion (days since 1970-01-01 to year/month/day),
used to embed JS `Date.getMonth()`/`getDate()`. -/
def civilFromDays (z : Int) : Int × Nat × Nat :=
  let z' := z + 719468
  let era := z'.ediv 146097
  let doe := (z'.emod 146097).toNat
  let yoe := (doe - doe / 1460 + doe / 36524 - doe / 146096) / 365
  let doy := doe - (365 * yoe + yoe / 4 - yoe / 100)
  let mp := (5 * doy + 2) / 153
  let dd := doy - (153 * mp + 2) / 5 + 1
  let m := if mp < 10 then mp + 3 else mp - 9
  let y := (yoe : Int) + era * 400 + (if m ≤ 2 then 1 else 0)
  (y, m, dd)

/-- Embeds `isInChristmasShutdown` (ConsentCalculator.tsx:221-225): JS
`getMonth()` is 0-based (11 = December, 0 = January). -/
def isInChristmasShutdown (d : Int) : Bool :=
  let month := (civilFromDays d).2.1 - 1
  let day := (civilFromDays d).2.2
  (month == 11 && day ≥ 20) || (month == 0 && day ≤ 10)


/-- Embeds `DateInterval` (ConsentCalculator.tsx:124-127); `endD` stands for the
source field `end` (a Lean keyword). -/
structure DateInterval where
  start : Int
  endD : Int
deriving DecidableEq, Repr

/-- Sort key of `intervals.sort((a, b) => a.start.getTime() - b.start.getTime())`. -/
def intervalLe (a b : DateInterval) : Prop := a.start ≤ b.start

instance : DecidableRel intervalLe :=
  fun a b => inferInstanceAs (Decidable (a.start ≤ b.start))

instance : IsTotal DateInterval intervalLe := ⟨fun a b => Int.le_total a.start b.start⟩

instance : IsTrans DateInterval intervalLe := ⟨fun _ _ _ => Int.le_trans⟩

/-- The merge loop of `mergeIntervals` (ConsentCalculator.tsx:312-321).
The source condition `next.start.getTime() <= current.end.getTime() + 1`
compares millisecond timestamps, hence the factor 86400000 on day
numbers. -/
def mergeGo (c : DateInterval) : List DateInterval → List DateInterval
  | [] => [c]
  | n :: rest =>
      if n.start * 86400000 ≤ c.endD * 86400000 + 1 then
        mergeGo ⟨c.start, max c.endD n.endD⟩ rest
      else
        c :: mergeGo n rest

/-- Embeds `mergeIntervals` (ConsentCalculator.tsx:305-323): stable sort by
start (JS `Array.prototype.sort` is stable), then a single merging
pass. -/
def mergeIntervals (intervals : List DateInterval) : List DateInterval :=
  match List.insertionSort intervalLe intervals with
  | [] => []
  | c :: rest => mergeGo c rest

/-- Embeds `clampIntervalToRange` (ConsentCalculator.tsx:325-340). -/
def clampIntervalToRange (holdStart holdEnd mainStart mainEnd : Int) :
    Option DateInterval :=
  if holdEnd < mainStart || holdStart > mainEnd then none
  else
    let clampedStart := max holdStart mainStart
    let clampedEnd := min holdEnd mainEnd
    if clampedStart > clampedEnd then none
    else some ⟨clampedStart, clampedEnd⟩

structure WorkingDaysResult where
  workingDays : Int
  weekends : Int
  holidays : Int
deriving DecidableEq, Repr

/-- Loop body of `calculateWorkingDays` (ConsentCalculator.tsx:256-270),
with an explicit fuel argument standing for the loop's day count; the
wrapper below supplies exactly enough fuel, so the fuel-0 base case
coincides with the loop exit. -/
def cwdGo (hs : List Int) (start endD : Int) (skipStartDay : Bool) :
    Nat → Int → Int → Int → Int → WorkingDaysResult
  | 0, _, w, we, ho => ⟨w, we, ho⟩
  | fuel + 1, current, w, we, ho =>
      if current ≤ endD then
        if skipStartDay && current == start then
          cwdGo hs start endD skipStartDay fuel (current + 1) w we ho
        else if isWeekend current then
          cwdGo hs start endD skipStartDay fuel (current + 1) w (we + 1) ho
        else if !isWorkingDay hs current then
          cwdGo hs start endD skipStartDay fuel (current + 1) w we (ho + 1)
        else
          cwdGo hs start endD skipStartDay fuel (current + 1) (w + 1) we ho
      else ⟨w, we, ho⟩

/-- Embeds `calculateWorkingDays` (ConsentCalculator.tsx:245-273). -/
def calculateWorkingDays (hs : List Int) (start endD : Int)
    (skipStartDay : Bool) : WorkingDaysResult :=
  cwdGo hs start endD skipStartDay (endD + 1 - start).toNat start 0 0 0

/-- Loop of `isPeriodEntirelyNonWorking` (ConsentCalculator.tsx:235-242),
fuelled like `cwdGo`. -/
def ipenwGo (hs : List Int) (endD : Int) : Nat → Int → Bool
  | 0, _ => true
  | fuel + 1, current =>
      if current ≤ endD then
        if isWorkingDay hs current then false
        else ipenwGo hs endD fuel (current + 1)
      else true

/-- Embeds `isPeriodEntirelyNonWorking` (ConsentCalculator.tsx:230-243). -/
def isPeriodEntirelyNonWorking (hs : List Int) (start endD : Int) : Bool :=
  if start == endD && !isWorkingDay hs start then true
  else ipenwGo hs endD (endD + 1 - start).toNat start

structure CalendarStats where
  totalCalendarDays : Int
  weekendDays : Int
  holidayDays : Int
deriving DecidableEq, Repr

/-- Loop of `calculateCalendarStatsForDisplay` (ConsentCalculator.tsx:289-296). -/
def ccsGo (hs : List Int) (endD : Int) : Nat → Int → Int → Int → Int × Int
  | 0, _, we, ho => (we, ho)
  | fuel + 1, current, we, ho =>
      if current ≤ endD then
        if isWeekend current then ccsGo hs endD fuel (current + 1) (we + 1) ho
        else if !isWorkingDay hs current then ccsGo hs endD fuel (current + 1) we (ho + 1)
        else ccsGo hs endD fuel (current + 1) we ho
      else (we, ho)

/-- Embeds `calculateCalendarStatsForDisplay` (ConsentCalculator.tsx:275-303);
`differenceInDays end start` is `end - start` on day numbers. -/
def calculateCalendarStatsForDisplay (hs : List Int) (start endD : Int) :
    CalendarStats :=
  if endD < start then ⟨0, 0, 0⟩
  else
    let p := ccsGo hs endD (endD + 1 - start).toNat start 0 0
    ⟨endD - start + 1, p.1, p.2⟩

/-- The digits prefix of JS `parseInt(s, 10)` after sign handling:
`none` when there is no leading digit (NaN). -/
def jsDigits (cs : List Char) : Option Nat :=
  let ds := cs.takeWhile (fun c => c.isDigit)
  if ds.isEmpty then none
  else some (ds.foldl (fun n c => n * 10 + (c.toNat - 48)) 0)

/-- JS `parseInt(s, 10)`: skip leading whitespace, optional sign, then
the longest digit prefix; `none` models `NaN`. -/
def jsParseInt (s : String) : Option Int :=
  let cs := s.toList.dropWhile (fun c =>
    c == ' ' || c == '\t' || c == '\n' || c == '\r')
  match cs with
  | '-' :: rest => (jsDigits rest).map (fun n => -(n : Int))
  | '+' :: rest => (jsDigits rest).map (fun n => (n : Int))
  | rest => (jsDigits rest).map (fun n => (n : Int))


/-- Hold periods: `HOLD_PERIOD_TYPES` keys are plain strings in the source; a hold
period's `start`/`end` fields are date-input strings.  `none` models the
empty string; `some none` models a set but unparseable value (`new Date`
yielding `NaN`); `some (some d)` a valid date. -/
structure HoldPeriod where
  type : String
  start : Option (Option Int)
  endD : Option (Option Int)
deriving DecidableEq, Repr

/-- Embeds `Extension` (ConsentCalculator.tsx:83-86): `days` is the raw input
string. -/
structure Extension where
  days : String
deriving DecidableEq, Repr

/-- Embeds the `CONSENT_TYPES` keys (ConsentCalculator.tsx:140-161). -/
inductive ConsentType where
  | standard
  | fastTrack
  | notifiednohearing
  | limitedNotified
  | publiclyNotified
deriving DecidableEq, Repr

/-- Embeds `CONSENT_TYPES[...].baseDays` (ConsentCalculator.tsx:140-161). -/
def baseDays : ConsentType → Int
  | .standard => 20
  | .fastTrack => 10
  | .notifiednohearing => 60
  | .limitedNotified => 100
  | .publiclyNotified => 130

/-- The raw field values feeding `calculateResult`: the component state
read at ConsentCalculator.tsx:368-382.  `none` for a date is the empty
input string. -/
structure Input where
  startDate : Option Int
  endDate : Option Int
  holdPeriods : List HoldPeriod
  extensions : List Extension
  applicationType : ConsentType
  nonWorkingDays : List Int
deriving DecidableEq, Repr

/-- The distinguishable validation errors set via `setValidationError`
(ConsentCalculator.tsx:372-408), in source order; the hold-period
constructors carry the period's `type` string interpolated into the
message. -/
inductive ValidationError where
  | missingBothDates
  | missingStartDate
  | missingEndDate
  | endBeforeStart
  | holdStartBeforeLodgement (t : String)
  | holdEndAfterDecision (t : String)
  | holdInverted (t : String)
deriving DecidableEq, Repr

/-- One entry of `holdPeriodDetails` (ConsentCalculator.tsx:513-521). -/
structure HoldDetail where
  type : String
  days : Int
  start : Int
  endD : Int
deriving DecidableEq, Repr

/-- Embeds `CalculationResult.details` (ConsentCalculator.tsx:107-116). -/
structure CalcDetails where
  weekends : Int
  holidays : Int
  holdPeriodDetails : List HoldDetail
deriving DecidableEq, Repr

/-- Embeds `CalculationResult` (ConsentCalculator.tsx:100-122). -/
structure CalculationResult where
  totalDays : Int
  holdDays : Int
  extensionDays : Int
  finalDays : Int
  maxDays : Int
  isOvertime : Bool
  details : CalcDetails
  calendarStats : CalendarStats
  rawHoldDays : Int
  wasExcludedDaysClamped : Bool
  excludedDaysSummary : Int
deriving DecidableEq, Repr

/-- JS `<` on a possibly-NaN date against a number: any comparison with
`NaN` is false. -/
def jsLtV (a : Option Int) (b : Int) : Bool :=
  match a with
  | some x => x < b
  | none => false

/-- JS `>` on a possibly-NaN date against a number. -/
def jsGtV (a : Option Int) (b : Int) : Bool :=
  match a with
  | some x => x > b
  | none => false

/-- JS `>` between two possibly-NaN dates. -/
def jsGtVV (a b : Option Int) : Bool :=
  match a, b with
  | some x, some y => x > y
  | _, _ => false

/-- The hold-period validation loop (ConsentCalculator.tsx:392-410):
first violation wins, periods scanned in list order, and a period is
checked only when both bounds are set. -/
def validateHolds (holds : List HoldPeriod) (originalStart mainEnd : Int) :
    Option ValidationError :=
  match holds with
  | [] => none
  | p :: rest =>
      match p.start, p.endD with
      | some sv, some ev =>
          if jsLtV sv originalStart then some (.holdStartBeforeLodgement p.type)
          else if jsGtV ev mainEnd then some (.holdEndAfterDecision p.type)
          else if jsGtVV sv ev then some (.holdInverted p.type)
          else validateHolds rest originalStart mainEnd
      | _, _ => validateHolds rest originalStart mainEnd

/-- The `while (!isWorkingDay(adjustedStart))` advance
(ConsentCalculator.tsx:451-454), fuelled; on the non-short-circuited
path a working day exists in `[originalStart, mainEnd]`, so the fuel
`(mainEnd - originalStart).toNat + 1` supplied below is enough for the
loop to stop at that day. -/
def adjustStart (hs : List Int) : Nat → Int → Int
  | 0, d => d
  | fuel + 1, d => if isWorkingDay hs d then d else adjustStart hs fuel (d + 1)

/-- Day 0 (`adjustedStart`, ConsentCalculator.tsx:451-454). -/
def adjustedStartOf (hs : List Int) (originalStart mainEnd : Int) : Int :=
  adjustStart hs ((mainEnd - originalStart).toNat + 1) originalStart

/-- Clamped hold intervals with their types (ConsentCalculator.tsx:491-510):
keep periods with both bounds set, drop `NaN` dates, clamp to
`[adjustedStart, mainEnd]`, drop periods clamped away. -/
def holdIntervalsOf (holds : List HoldPeriod) (adjustedStart mainEnd : Int) :
    List (String × DateInterval) :=
  holds.filterMap (fun p =>
    match p.start, p.endD with
    | some (some s), some (some e) =>
        (clampIntervalToRange s e adjustedStart mainEnd).map (fun iv => (p.type, iv))
    | _, _ => none)

/-- The extension-day sum (ConsentCalculator.tsx:531-535): `parseInt`
per entry, `NaN` contributing 0. -/
def extSum (extensions : List Extension) : Int :=
  extensions.foldl (fun sum ext => sum + ((jsParseInt ext.days).getD 0)) 0

/-- The all-zero `CalculationResult` of the all-non-working
short-circuit (ConsentCalculator.tsx:425-446). -/
def zeroResult (base : Int) : CalculationResult :=
  ⟨0, 0, 0, 0, base, false, ⟨0, 0, []⟩, ⟨0, 0, 0⟩, 0, false, 0⟩

/-- The main computation after validation (ConsentCalculator.tsx:412-591),
from the short-circuit check to the assembled `CalculationResult`. -/
def calcBody (hs : List Int) (originalStart mainEnd : Int)
    (holds : List HoldPeriod) (extensions : List Extension)
    (applicationType : ConsentType) : CalculationResult :=
  if !isWorkingDay hs originalStart && isPeriodEntirelyNonWorking hs originalStart mainEnd then
    zeroResult (baseDays applicationType)
  else
    let adjustedStart := adjustedStartOf hs originalStart mainEnd
    let stat := calculateWorkingDays hs adjustedStart mainEnd true
    let calendarStart := adjustedStart + 1
    let calendarStats : CalendarStats :=
      if mainEnd < calendarStart then ⟨0, 0, 0⟩
      else calculateCalendarStatsForDisplay hs calendarStart mainEnd
    let holdIntervals := holdIntervalsOf holds adjustedStart mainEnd
    let holdPeriodDetails := holdIntervals.map (fun ti =>
      HoldDetail.mk ti.1 (calculateWorkingDays hs ti.2.start ti.2.endD false).workingDays
        ti.2.start ti.2.endD)
    let merged := mergeIntervals (holdIntervals.map (fun ti => ti.2))
    let holdDaysRaw := merged.foldl (fun acc iv =>
      acc + (calculateWorkingDays hs iv.start iv.endD false).workingDays) 0
    let extensionDays := extSum extensions
    let maxDays := baseDays applicationType + extensionDays
    let holdDaysClamped := min holdDaysRaw stat.workingDays
    let wasClamped1 : Bool := holdDaysClamped < holdDaysRaw
    let finalDays : Int :=
      if stat.workingDays - holdDaysClamped < 0 then 0
      else stat.workingDays - holdDaysClamped
    let wasClamped2 : Bool :=
      if stat.workingDays - holdDaysClamped < 0 then true else wasClamped1
    let rawExcludedDaysSummary := stat.weekends + stat.holidays + holdDaysRaw
    let excludedDaysSummary : Int :=
      if calendarStats.totalCalendarDays = 0 then 0
      else if rawExcludedDaysSummary > calendarStats.totalCalendarDays then
        calendarStats.totalCalendarDays
      else rawExcludedDaysSummary
    let wasClamped3 : Bool :=
      if calendarStats.totalCalendarDays = 0 then wasClamped2
      else if rawExcludedDaysSummary > calendarStats.totalCalendarDays then true
      else wasClamped2
    ⟨stat.workingDays, holdDaysClamped, extensionDays, finalDays, maxDays,
      finalDays > maxDays, ⟨stat.weekends, stat.holidays, holdPeriodDetails⟩,
      calendarStats, holdDaysRaw, wasClamped3, excludedDaysSummary⟩

/-- Embeds `calculateResult` (ConsentCalculator.tsx:368-591): validation with
early returns, then the short-circuit check and the main computation.
Errors are returned, never thrown; no result accompanies an error. -/
def calculateResult (inp : Input) : Except ValidationError CalculationResult :=
  match inp.startDate, inp.endDate with
  | none, none => .error .missingBothDates
  | none, some _ => .error .missingStartDate
  | some _, none => .error .missingEndDate
  | some originalStart, some mainEnd =>
      if mainEnd < originalStart then .error .endBeforeStart
      else
        match validateHolds inp.holdPeriods originalStart mainEnd with
        | some e => .error e
        | none =>
            .ok (calcBody inp.nonWorkingDays originalStart mainEnd
              inp.holdPeriods inp.extensions inp.applicationType)

def defaultResult : CalculationResult := zeroResult 0

/-- The result record of a successful calculation (used to state closed
witnesses at concrete inputs). -/
def resultOf (inp : Input) : CalculationResult :=
  match calculateResult inp with
  | .ok r => r
  | .error _ => defaultResult

/-- Reference check of one hold period, following the amended error
ordering: start-before-lodgement, then end-after-decision, then
start-after-end; only periods with both bounds set are checked. -/
def specHoldError (p : HoldPeriod) (s e : Int) : Option ValidationError :=
  match p.start, p.endD with
  | some sv, some ev =>
      if jsLtV sv s then some (.holdStartBeforeLodgement p.type)
      else if jsGtV ev e then some (.holdEndAfterDecision p.type)
      else if jsGtVV sv ev then some (.holdInverted p.type)
      else none
  | _, _ => none

/-- Reference validator for the amended error-ordering claim: rules
checked in the order missing-both-dates, missing-start, missing-end,
end-before-start, then the hold periods scanned in input order with the
per-period order of `specHoldError`; the first violation found wins. -/
def specFirstError (inp : Input) : Option ValidationError :=
  match inp.startDate, inp.endDate with
  | none, none => some .missingBothDates
  | none, some _ => some .missingStartDate
  | some _, none => some .missingEndDate
  | some s, some e =>
      if e < s then some .endBeforeStart
      else inp.holdPeriods.findSome? (fun p => specHoldError p s e)

/-- Scenario A of the spec: lodged Monday 2024-01-08 (day 19730),
decision Monday 2024-01-15 (day 19737), no holds or extensions. -/
def inpA : Input := ⟨some 19730, some 19737, [], [], .standard, []⟩

/-- Two hold periods, the first inverted inside the range, the second
starting before the lodgement date. -/
def inpC4 : Input :=
  ⟨some 19730, some 19737,
    [⟨"s91", some (some 19734), some (some 19732)⟩,
     ⟨"s88E", some (some 19720), some (some 19731)⟩], [], .standard, []⟩

/-- A single extension holding the value "-5". -/
def inpC5 : Input := ⟨some 19730, some 19737, [], [⟨"-5"⟩], .standard, []⟩

/-- Extensions "3", blank and "abc" on the normal path. -/
def inpC5W : Input :=
  ⟨some 19730, some 19737, [], [⟨"3"⟩, ⟨""⟩, ⟨"abc"⟩], .standard, []⟩

/-- Lodged Saturday 2024-01-06 (day 19728), decision Sunday 2024-01-07
(day 19729), empty holiday set: every day in range is non-working. -/
def inpC6 : Input := ⟨some 19728, some 19729, [], [], .standard, []⟩

/-- Same all-non-working span as `inpC6` but with an extension of 7
days present. -/
def inpC10 : Input := ⟨some 19728, some 19729, [], [⟨"7"⟩], .standard, []⟩

/-- Lodged Monday 2024-01-08, decision Tuesday 2024-01-09, one hold
period covering both days: the inclusive hold count (2) exceeds the
exclusive elapsed count (1), forcing the clamp. -/
def inpC8 : Input :=
  ⟨some 19730, some 19731,
    [⟨"s92(1)", some (some 19730), some (some 19731)⟩], [], .standard, []⟩

/-! ### Helper lemmas -/

/-- The source's merge condition compares millisecond timestamps with a
slack of one millisecond; on day numbers it is exactly `a ≤ b`. -/
theorem merge_cond_iff (a b : Int) :
    a * 86400000 ≤ b * 86400000 + 1 ↔ a ≤ b := by omega

theorem cwd_single_skip (hs : List Int) (d : Int) :
    calculateWorkingDays hs d d true = ⟨0, 0, 0⟩ := by
  have h1 : (d + 1 - d : Int).toNat = 1 := by omega
  unfold calculateWorkingDays
  rw [h1]
  simp [cwdGo]

theorem cwd_single_noskip_sum (hs : List Int) (d : Int) :
    (calculateWorkingDays hs d d false).workingDays
      + (calculateWorkingDays hs d d false).weekends
      + (calculateWorkingDays hs d d false).holidays = 1 := by
  have h1 : (d + 1 - d : Int).toNat = 1 := by omega
  unfold calculateWorkingDays
  rw [h1]
  by_cases hw : isWeekend d
  · simp [cwdGo, hw]
  · by_cases hh : isWorkingDay hs d
    · simp [cwdGo, hw, hh]
    · simp [cwdGo, hw, hh]

theorem cwd_sum_go (hs : List Int) (start endD : Int) (skip : Bool) :
    ∀ (fuel : Nat) (current w we ho : Int), start < current →
      (endD + 1 - current).toNat ≤ fuel →
      (cwdGo hs start endD skip fuel current w we ho).workingDays
        + (cwdGo hs start endD skip fuel current w we ho).weekends
        + (cwdGo hs start endD skip fuel current w we ho).holidays
        = w + we + ho + ((endD + 1 - current).toNat : Int) := by
  intro fuel
  induction fuel with
  | zero =>
      intro current w we ho hlt hfuel
      have h0 : (endD + 1 - current).toNat = 0 := by omega
      rw [h0]
      simp [cwdGo]
  | succ fuel ih =>
      intro current w we ho hlt hfuel
      by_cases hc : current ≤ endD
      · have hskip : (skip && current == start) = false := by
          have : (current == start) = false := by
            simp [Int.lt_iff_le_and_ne] at hlt
            simp
            omega
          simp [this]
        have hstep : (endD + 1 - (current + 1)).toNat ≤ fuel := by omega
        have hlt1 : start < current + 1 := by omega
        have hcount : ((endD + 1 - current).toNat : Int)
            = ((endD + 1 - (current + 1)).toNat : Int) + 1 := by omega
        rw [cwdGo]
        rw [if_pos hc, hskip]
        by_cases hw : isWeekend current
        · simp only [Bool.false_eq_true, if_false, hw, if_true]
          rw [ih (current + 1) w (we + 1) ho hlt1 hstep]
          omega
        · by_cases hh : isWorkingDay hs current
          · simp only [Bool.false_eq_true, if_false, hw, hh, Bool.not_true]
            rw [ih (current + 1) (w + 1) we ho hlt1 hstep]
            omega
          · simp only [Bool.false_eq_true, if_false, hw, hh, Bool.not_false, if_true]
            rw [ih (current + 1) w we (ho + 1) hlt1 hstep]
            omega
      · have h0 : (endD + 1 - current).toNat = 0 := by omega
        rw [h0, cwdGo, if_neg hc]
        simp

/-- With `skipStart = true` the counting loop classifies each day of
`[start + 1, endD]` into exactly one of the three counters. -/
theorem cwd_skip_sum (hs : List Int) (s e : Int) (hse : s ≤ e) :
    (calculateWorkingDays hs s e true).workingDays
      + (calculateWorkingDays hs s e true).weekends
      + (calculateWorkingDays hs s e true).holidays = e - s := by
  have hf : (e + 1 - s).toNat = (e - s).toNat + 1 := by omega
  unfold calculateWorkingDays
  rw [hf, cwdGo, if_pos hse]
  have hskip : (true && s == s) = true := by simp
  rw [hskip]
  simp only [if_true]
  rw [cwd_sum_go hs s e true (e - s).toNat (s + 1) 0 0 0 (by omega) (by omega)]
  omega

theorem ipenwGo_iff (hs : List Int) (e : Int) :
    ∀ (fuel : Nat) (c : Int), (e + 1 - c).toNat ≤ fuel →
      (ipenwGo hs e fuel c = true ↔
        ∀ d, c ≤ d → d ≤ e → isWorkingDay hs d = false) := by
  intro fuel
  induction fuel with
  | zero =>
      intro c hfuel
      simp only [ipenwGo, true_iff]
      intro d h1 h2
      omega
  | succ fuel ih =>
      intro c hfuel
      rw [ipenwGo]
      by_cases hc : c ≤ e
      · rw [if_pos hc]
        by_cases hw : isWorkingDay hs c
        · rw [if_pos hw]
          constructor
          · intro h
            exact absurd h (by simp)
          · intro hall
            exact absurd (hall c (le_refl c) hc) (by simp [hw])
        · rw [if_neg hw]
          rw [ih (c + 1) (by omega)]
          constructor
          · intro hall d h1 h2
            rcases eq_or_lt_of_le h1 with heq | hlt
            · rw [← heq]
              exact Bool.not_eq_true _ ▸ (by simpa using hw)
            · exact hall d (by omega) h2
          · intro hall d h1 h2
            exact hall d (by omega) h2
      · rw [if_neg hc]
        simp only [true_iff]
        intro d h1 h2
        omega

theorem isPeriodEntirelyNonWorking_iff (hs : List Int) (s e : Int) :
    isPeriodEntirelyNonWorking hs s e = true ↔
      ∀ d, s ≤ d → d ≤ e → isWorkingDay hs d = false := by
  unfold isPeriodEntirelyNonWorking
  by_cases h : (s == e && !isWorkingDay hs s) = true
  · rw [if_pos h]
    simp only [Bool.and_eq_true, beq_iff_eq, Bool.not_eq_true'] at h
    simp only [true_iff]
    intro d h1 h2
    have hd : d = s := by omega
    rw [hd]
    exact h.2
  · rw [if_neg h]
    exact ipenwGo_iff hs e _ s (le_refl _)

theorem adjustStart_le (hs : List Int) :
    ∀ (fuel : Nat) (d w : Int), d ≤ w → w < d + (fuel : Int) →
      isWorkingDay hs w = true →
      d ≤ adjustStart hs fuel d ∧ adjustStart hs fuel d ≤ w := by
  intro fuel
  induction fuel with
  | zero =>
      intro d w h1 h2 h3
      omega
  | succ fuel ih =>
      intro d w h1 h2 h3
      rw [adjustStart]
      by_cases hw : isWorkingDay hs d
      · rw [if_pos hw]
        exact ⟨le_refl d, h1⟩
      · rw [if_neg hw]
        have hne : d ≠ w := fun hdw => hw (hdw ▸ h3)
        have := ih (d + 1) w (by omega) (by omega) h3
        exact ⟨by omega, this.2⟩

theorem adjustedStartOf_bounds (hs : List Int) (s e : Int) (hse : s ≤ e)
    (hex : ∃ w, s ≤ w ∧ w ≤ e ∧ isWorkingDay hs w = true) :
    s ≤ adjustedStartOf hs s e ∧ adjustedStartOf hs s e ≤ e := by
  obtain ⟨w, h1, h2, h3⟩ := hex
  have := adjustStart_le hs ((e - s).toNat + 1) s w h1 (by push_cast; omega) h3
  exact ⟨this.1, le_trans this.2 h2⟩

theorem exists_working_of_not_shortCircuit (hs : List Int) (s e : Int)
    (hse : s ≤ e)
    (h : (!isWorkingDay hs s && isPeriodEntirelyNonWorking hs s e) = false) :
    ∃ w, s ≤ w ∧ w ≤ e ∧ isWorkingDay hs w = true := by
  rcases Bool.and_eq_false_iff.mp h with h1 | h2
  · exact ⟨s, le_refl s, hse, by simpa using h1⟩
  · have := (not_iff_not.mpr (isPeriodEntirelyNonWorking_iff hs s e)).mp
      (by simp [h2])
    push_neg at this
    obtain ⟨d, hd1, hd2, hd3⟩ := this
    exact ⟨d, hd1, hd2, by simpa using hd3⟩

theorem extSum_foldl_nonneg :
    ∀ (l : List Extension) (acc : Int), 0 ≤ acc →
      (∀ x ∈ l, 0 ≤ (jsParseInt x.days).getD 0) →
      0 ≤ l.foldl (fun sum ext => sum + ((jsParseInt ext.days).getD 0)) acc := by
  intro l
  induction l with
  | nil => intro acc hacc _; simpa using hacc
  | cons x xs ih =>
      intro acc hacc hall
      simp only [List.foldl_cons]
      refine ih _ ?_ (fun y hy => hall y (List.mem_cons_of_mem x hy))
      have := hall x (List.mem_cons_self x xs)
      omega

theorem extSum_nonneg (l : List Extension)
    (h : ∀ x ∈ l, 0 ≤ (jsParseInt x.days).getD 0) : 0 ≤ extSum l :=
  extSum_foldl_nonneg l 0 (le_refl 0) h

/-- Unpacking a successful run of `calculateResult`: the dates are
present, validation passed, and the result is `calcBody`. -/
theorem calculateResult_ok (inp : Input) (r : CalculationResult)
    (h : calculateResult inp = Except.ok r) :
    ∃ s e, inp.startDate = some s ∧ inp.endDate = some e ∧ ¬(e < s) ∧
      validateHolds inp.holdPeriods s e = none ∧
      r = calcBody inp.nonWorkingDays s e inp.holdPeriods inp.extensions
            inp.applicationType := by
  unfold calculateResult at h
  cases hs1 : inp.startDate with
  | none =>
      cases hs2 : inp.endDate with
      | none => simp [hs1, hs2] at h
      | some e => simp [hs1, hs2] at h
  | some s =>
      cases hs2 : inp.endDate with
      | none => simp [hs1, hs2] at h
      | some e =>
          simp only [hs1, hs2] at h
          by_cases hlt : e < s
          · simp [hlt] at h
          · rw [if_neg hlt] at h
            cases hv : validateHolds inp.holdPeriods s e with
            | some err => rw [hv] at h; simp at h
            | none =>
                rw [hv] at h
                simp only [Except.ok.injEq] at h
                exact ⟨s, e, rfl, rfl, hlt, hv, h.symm⟩

theorem mergeGo_ne_nil (c : DateInterval) :
    ∀ rest : List DateInterval, mergeGo c rest ≠ [] := by
  intro rest
  induction rest generalizing c with
  | nil => simp [mergeGo]
  | cons n rest ih =>
      rw [mergeGo]
      by_cases hc : n.start * 86400000 ≤ c.endD * 86400000 + 1
      · rw [if_pos hc]; exact ih _
      · rw [if_neg hc]; simp

/-- Structure of the merge pass: when fed well-formed intervals sorted by
start, every output interval is well-formed, starts no earlier than the
accumulator, and consecutive outputs are separated by more than the
one-millisecond slack (on day numbers: a strict gap). -/
theorem mergeGo_spec :
    ∀ (rest : List DateInterval) (c : DateInterval),
      c.start ≤ c.endD →
      (∀ x ∈ rest, x.start ≤ x.endD) →
      (∀ x ∈ rest, c.start ≤ x.start) →
      List.Pairwise intervalLe rest →
      (∀ x ∈ mergeGo c rest, x.start ≤ x.endD) ∧
      (∀ x ∈ mergeGo c rest, c.start ≤ x.start) ∧
      List.Pairwise (fun a b => a.endD < b.start) (mergeGo c rest) := by
  intro rest
  induction rest with
  | nil =>
      intro c hc _ _ _
      refine ⟨?_, ?_, ?_⟩ <;> simp [mergeGo, hc]
  | cons n rest ih =>
      intro c hc hwf hstarts hpair
      rw [List.pairwise_cons] at hpair
      rw [mergeGo]
      by_cases hcond : n.start * 86400000 ≤ c.endD * 86400000 + 1
      · rw [if_pos hcond]
        have hc' : (DateInterval.mk c.start (max c.endD n.endD)).start
            ≤ (DateInterval.mk c.start (max c.endD n.endD)).endD := by
          simp only []
          exact le_trans hc (le_max_left _ _)
        have := ih ⟨c.start, max c.endD n.endD⟩ hc'
          (fun x hx => hwf x (List.mem_cons_of_mem n hx))
          (fun x hx => hstarts x (List.mem_cons_of_mem n hx))
          hpair.2
        exact this
      · rw [if_neg hcond]
        have hgap : c.endD < n.start := by
          rw [merge_cond_iff] at hcond
          omega
        have := ih n (hwf n (List.mem_cons_self n rest))
          (fun x hx => hwf x (List.mem_cons_of_mem n hx))
          (fun x hx => hpair.1 x hx)
          hpair.2
        obtain ⟨hwf', hstarts', hpair'⟩ := this
        refine ⟨?_, ?_, ?_⟩
        · intro x hx
          rcases List.mem_cons.mp hx with hx | hx
          · rw [hx]; exact hc
          · exact hwf' x hx
        · intro x hx
          rcases List.mem_cons.mp hx with hx | hx
          · rw [hx]
          · exact le_trans (hstarts n (List.mem_cons_self n rest)) (hstarts' x hx)
        · rw [List.pairwise_cons]
          refine ⟨?_, hpair'⟩
          intro x hx
          exact lt_of_lt_of_le hgap (hstarts' x hx)

/-- A gap-separated list passes through the merge loop unchanged. -/
theorem mergeGo_id :
    ∀ (rest : List DateInterval) (c : DateInterval),
      List.Pairwise (fun a b => a.endD < b.start) (c :: rest) →
      mergeGo c rest = c :: rest := by
  intro rest
  induction rest with
  | nil => intro c _; rfl
  | cons n rest ih =>
      intro c hpair
      rw [List.pairwise_cons] at hpair
      have hgap : c.endD < n.start := hpair.1 n (List.mem_cons_self n rest)
      rw [mergeGo, if_neg (by rw [merge_cond_iff]; omega)]
      rw [ih n hpair.2]

/-! ### Claim theorems -/

/-- C1, counterexample: 2024-12-23 (day 20080, a Monday) lies in the
seasonal blackout window, yet with an empty loaded holiday set
`isWorkingDay` classifies it as working — the blackout is not evaluated
independently of the holiday set. -/
theorem C1_counterexample :
    isInChristmasShutdown 20080 = true ∧ isWorkingDay [] 20080 = true := by
  constructor
  · decide
  · decide

/-- C1, amended: `isWorkingDay` returns false exactly when the date is a
weekend or appears in the loaded holiday set; the seasonal blackout
window plays no role in the classification (blackout dates are
non-working only insofar as the loaded set lists them). -/
theorem C1_amended (hs : List Int) (d : Int) :
    isWorkingDay hs d = false ↔ (isWeekend d = true ∨ d ∈ hs) := by
  unfold isWorkingDay
  by_cases h : isWeekend d
  · simp [h]
  · simp only [h, Bool.false_eq_true, if_false, Bool.not_eq_false',
      List.any_eq_true, beq_iff_eq]
    constructor
    · rintro ⟨x, hx, hxe⟩
      exact Or.inr (hxe ▸ hx)
    · rintro (hw | hm)
      · exact absurd hw (by simp [h])
      · exact ⟨d, hm, rfl⟩

/-- C2, counterexample: the hold periods 2024-01-10..2024-01-12 (days
19732..19734) and 2024-01-13..2024-01-15 (days 19735..19737) satisfy
"next start ≤ current end plus one day", yet `mergeIntervals` leaves
them unmerged: the source's `+ 1` is one millisecond, not one day. -/
theorem C2_counterexample :
    mergeIntervals [⟨19732, 19734⟩, ⟨19735, 19737⟩]
        = [⟨19732, 19734⟩, ⟨19735, 19737⟩] ∧
      (19735 : Int) ≤ 19734 + 1 := by
  constructor
  · decide
  · decide

/-- C2, amended: `mergeIntervals` sorts by start ascending and merges two
intervals exactly when the next interval's start is no later than the
current merged interval's end (the one-millisecond slack never spans a
day): same-day touching intervals merge, one-day-apart intervals do
not. -/
theorem C2_amended (a b : DateInterval) (h1 : a.start ≤ a.endD)
    (h2 : b.start ≤ b.endD) (h3 : a.start ≤ b.start) :
    mergeIntervals [a, b] =
      if b.start ≤ a.endD then [⟨a.start, max a.endD b.endD⟩] else [a, b] := by
  have hsort : List.insertionSort intervalLe [a, b] = [a, b] := by
    apply List.Sorted.insertionSort_eq
    rw [List.sorted_cons]
    exact ⟨fun x hx => by rw [List.mem_singleton.mp hx]; exact h3,
      List.sorted_singleton b⟩
  unfold mergeIntervals
  rw [hsort]
  by_cases hc : b.start ≤ a.endD
  · rw [if_pos hc]
    have hcond : b.start * 86400000 ≤ a.endD * 86400000 + 1 :=
      (merge_cond_iff _ _).mpr hc
    show mergeGo a [b] = _
    simp only [mergeGo, if_pos hcond]
  · rw [if_neg hc]
    have hcond : ¬(b.start * 86400000 ≤ a.endD * 86400000 + 1) := by
      rw [merge_cond_iff]; omega
    show mergeGo a [b] = _
    simp only [mergeGo, if_neg hcond]

/-- C2, amended, witness: spec scenario D — holds 2024-01-10..2024-01-12
and 2024-01-12..2024-01-15 touch at 01-12 and merge into
2024-01-10..2024-01-15. -/
theorem C2_witness :
    mergeIntervals [⟨19732, 19734⟩, ⟨19734, 19737⟩] =
      if (19734 : Int) ≤ (19734 : Int) then
        [⟨(19732 : Int), max (19734 : Int) (19737 : Int)⟩]
      else [⟨19732, 19734⟩, ⟨19734, 19737⟩] :=
  C2_amended ⟨19732, 19734⟩ ⟨19734, 19737⟩ (by decide) (by decide) (by decide)

/-- C7: on a single-day interval, `calculateWorkingDays` with
`skipStartDay = true` returns zero in all three counters; with
`skipStartDay = false` it classifies exactly one day, so the three
counters sum to one. -/
theorem C7_single_day (hs : List Int) (d : Int) :
    calculateWorkingDays hs d d true = ⟨0, 0, 0⟩ ∧
    (calculateWorkingDays hs d d false).workingDays
      + (calculateWorkingDays hs d d false).weekends
      + (calculateWorkingDays hs d d false).holidays = 1 :=
  ⟨cwd_single_skip hs d, cwd_single_noskip_sum hs d⟩

/-- C9: `mergeIntervals` is idempotent on lists of well-formed intervals
(start ≤ end): merging an already-merged list returns it unchanged. -/
theorem C9_idempotent (l : List DateInterval)
    (hwf : ∀ x ∈ l, x.start ≤ x.endD) :
    mergeIntervals (mergeIntervals l) = mergeIntervals l := by
  cases hsort : List.insertionSort intervalLe l with
  | nil =>
      have : mergeIntervals l = [] := by rw [mergeIntervals, hsort]
      rw [this]
      rfl
  | cons c rest =>
      have hml : mergeIntervals l = mergeGo c rest := by rw [mergeIntervals, hsort]
      have hsorted : List.Sorted intervalLe (c :: rest) := by
        rw [← hsort]; exact List.sorted_insertionSort intervalLe l
      have hmem : ∀ x, x ∈ c :: rest → x ∈ l := by
        intro x hx
        have hp := (List.perm_insertionSort intervalLe l).mem_iff (a := x)
        rw [hsort] at hp
        exact hp.mp hx
      rw [List.sorted_cons] at hsorted
      obtain ⟨hwf', hstarts', hgap'⟩ := mergeGo_spec rest c
        (hwf c (hmem c (List.mem_cons_self c rest)))
        (fun x hx => hwf x (hmem x (List.mem_cons_of_mem c hx)))
        (fun x hx => hsorted.1 x hx)
        hsorted.2
      have hsorted2 : List.Sorted intervalLe (mergeGo c rest) :=
        hgap'.imp_of_mem
          (fun ha _ hr => le_of_lt (lt_of_le_of_lt (hwf' _ ha) hr))
      cases hmg : mergeGo c rest with
      | nil => exact absurd hmg (mergeGo_ne_nil c rest)
      | cons c2 rest2 =>
          rw [hml, hmg]
          unfold mergeIntervals
          rw [List.Sorted.insertionSort_eq (hmg ▸ hsorted2)]
          exact mergeGo_id rest2 c2 (hmg ▸ hgap')

/-- C3: every successful calculation satisfies
`finalDays = max 0 (elapsed - clampedHold)`, `clampedHold ≤ elapsed` and
`finalDays ≥ 0`. -/
theorem C3_invariants (inp : Input) (r : CalculationResult)
    (h : calculateResult inp = Except.ok r) :
    r.finalDays = max 0 (r.totalDays - r.holdDays) ∧
    r.holdDays ≤ r.totalDays ∧ 0 ≤ r.finalDays := by
  obtain ⟨s, e, _, _, _, _, hr⟩ := calculateResult_ok inp r h
  subst hr
  unfold calcBody
  by_cases hsc : (!isWorkingDay inp.nonWorkingDays s &&
      isPeriodEntirelyNonWorking inp.nonWorkingDays s e) = true
  · rw [if_pos hsc]
    refine ⟨?_, ?_, ?_⟩ <;> simp [zeroResult]
  · rw [if_neg hsc]
    simp only []
    set raw := (mergeIntervals
      ((holdIntervalsOf inp.holdPeriods
          (adjustedStartOf inp.nonWorkingDays s e) e).map
        (fun ti => ti.2))).foldl
      (fun acc iv =>
        acc + (calculateWorkingDays inp.nonWorkingDays iv.start iv.endD
          false).workingDays) 0 with hraw
    set total := (calculateWorkingDays inp.nonWorkingDays
      (adjustedStartOf inp.nonWorkingDays s e) e true).workingDays with htotal
    refine ⟨?_, ?_, ?_⟩
    · split_ifs with hneg <;> omega
    · have := min_le_right raw total
      omega
    · split_ifs with hneg <;> omega

/-- C3, witness: scenario A satisfies the invariants. -/
theorem C3_witness :
    (resultOf inpA).finalDays
        = max 0 ((resultOf inpA).totalDays - (resultOf inpA).holdDays) ∧
      (resultOf inpA).holdDays ≤ (resultOf inpA).totalDays ∧
      0 ≤ (resultOf inpA).finalDays :=
  C3_invariants inpA (resultOf inpA) (by rfl)

/-- C9, witness: a concrete well-formed list (scenario D's holds, given
out of order) on which a second merge changes nothing. -/
theorem C9_witness :
    mergeIntervals (mergeIntervals [⟨19734, 19737⟩, ⟨19732, 19734⟩])
      = mergeIntervals [⟨19734, 19737⟩, ⟨19732, 19734⟩] :=
  C9_idempotent [⟨19734, 19737⟩, ⟨19732, 19734⟩] (by decide)

/-- C4, counterexample: in `inpC4` both the hold-out-of-range rule (the
second period starts before the lodgement date) and the hold-inverted
rule (the first period) are violated, yet the reported error is the
inverted one — list order, not the claimed rule order, decides. -/
theorem C4_counterexample :
    calculateResult inpC4 = Except.error (ValidationError.holdInverted "s91") ∧
      validateHolds [⟨"s88E", some (some 19720), some (some 19731)⟩]
          19730 19737
        = some (ValidationError.holdStartBeforeLodgement "s88E") := by
  constructor
  · rfl
  · rfl

theorem validateHolds_eq_findSome (s e : Int) :
    ∀ holds : List HoldPeriod,
      validateHolds holds s e = holds.findSome? (fun p => specHoldError p s e) := by
  intro holds
  induction holds with
  | nil => rfl
  | cons p rest ih =>
      rw [validateHolds, List.findSome?_cons]
      cases hps : p.start with
      | none =>
          have hf : specHoldError p s e = none := by simp [specHoldError, hps]
          rw [hf, ih]
      | some sv =>
          cases hpe : p.endD with
          | none =>
              have hf : specHoldError p s e = none := by
                simp [specHoldError, hps, hpe]
              rw [hf, ih]
          | some ev =>
              by_cases h1 : jsLtV sv s = true
              · have hf : specHoldError p s e
                    = some (.holdStartBeforeLodgement p.type) := by
                  simp [specHoldError, hps, hpe, h1]
                rw [hf]
                simp [h1]
              · rw [Bool.not_eq_true] at h1
                by_cases h2 : jsGtV ev e = true
                · have hf : specHoldError p s e
                      = some (.holdEndAfterDecision p.type) := by
                    simp [specHoldError, hps, hpe, h1, h2]
                  rw [hf]
                  simp [h1, h2]
                · rw [Bool.not_eq_true] at h2
                  by_cases h3 : jsGtVV sv ev = true
                  · have hf : specHoldError p s e
                        = some (.holdInverted p.type) := by
                      simp [specHoldError, hps, hpe, h1, h2, h3]
                    rw [hf]
                    simp [h1, h2, h3]
                  · rw [Bool.not_eq_true] at h3
                    have hf : specHoldError p s e = none := by
                      simp [specHoldError, hps, hpe, h1, h2, h3]
                    rw [hf]
                    simp [h1, h2, h3, ih]

/-- C4, amended: `calculateResult` returns either a result or exactly one
distinguishable validation error, and the reported error is the first
violation in the order missing-both-dates, missing-start, missing-end,
end-before-start, then the hold periods scanned in input order, each
checked start-before-lodgement, end-after-decision, start-after-end
(`specFirstError`).  Rule priority across distinct hold periods follows
list position, not a global rule ranking. -/
theorem C4_amended (inp : Input) :
    (∀ err, calculateResult inp = Except.error err ↔
      specFirstError inp = some err) ∧
    ((∃ r, calculateResult inp = Except.ok r) ↔ specFirstError inp = none) := by
  cases hs1 : inp.startDate with
  | none =>
      cases hs2 : inp.endDate with
      | none =>
          constructor
          · intro err
            simp [calculateResult, specFirstError, hs1, hs2, eq_comm]
          · simp [calculateResult, specFirstError, hs1, hs2]
      | some e =>
          constructor
          · intro err
            simp [calculateResult, specFirstError, hs1, hs2, eq_comm]
          · simp [calculateResult, specFirstError, hs1, hs2]
  | some s =>
      cases hs2 : inp.endDate with
      | none =>
          constructor
          · intro err
            simp [calculateResult, specFirstError, hs1, hs2, eq_comm]
          · simp [calculateResult, specFirstError, hs1, hs2]
      | some e =>
          by_cases hlt : e < s
          · constructor
            · intro err
              simp [calculateResult, specFirstError, hs1, hs2, hlt, eq_comm]
            · simp [calculateResult, specFirstError, hs1, hs2, hlt]
          · cases hv : validateHolds inp.holdPeriods s e with
            | none =>
                constructor
                · intro err
                  simp [calculateResult, specFirstError, hs1, hs2, hlt,
                    ← validateHolds_eq_findSome, hv]
                · simp [calculateResult, specFirstError, hs1, hs2, hlt,
                    ← validateHolds_eq_findSome, hv]
            | some err2 =>
                constructor
                · intro err
                  simp [calculateResult, specFirstError, hs1, hs2, hlt,
                    ← validateHolds_eq_findSome, hv, eq_comm]
                · simp [calculateResult, specFirstError, hs1, hs2, hlt,
                    ← validateHolds_eq_findSome, hv]

/-- C5, counterexample: a lone extension entry "-5" parses to -5 and is
not replaced by zero: the computed extension total is -5 < 0, refuting
both "negative entries contribute exactly zero" and "the extension total
is always ≥ 0". -/
theorem C5_counterexample :
    calculateResult inpC5 = Except.ok (resultOf inpC5) ∧
      (resultOf inpC5).extensionDays = -5 ∧
      (resultOf inpC5).extensionDays < 0 := by
  refine ⟨rfl, rfl, by decide⟩

/-- C5, amended: on the normal (non-short-circuited) path the extension
total is the sum of the `parseInt` values of the entries, with
unparseable or blank entries contributing zero, but parseable negative
entries contributing their negative value; the total is ≥ 0 whenever
every parsed entry is ≥ 0. -/
theorem C5_amended (inp : Input) (r : CalculationResult) (s e : Int)
    (h : calculateResult inp = Except.ok r)
    (hs1 : inp.startDate = some s) (hs2 : inp.endDate = some e)
    (hns : (!isWorkingDay inp.nonWorkingDays s &&
        isPeriodEntirelyNonWorking inp.nonWorkingDays s e) = false) :
    r.extensionDays = extSum inp.extensions ∧
    ((∀ x ∈ inp.extensions, 0 ≤ (jsParseInt x.days).getD 0) →
      0 ≤ r.extensionDays) := by
  obtain ⟨s2, e2, hs1w, hs2w, _, _, hr⟩ := calculateResult_ok inp r h
  rw [hs1] at hs1w
  rw [hs2] at hs2w
  injection hs1w with hseq
  injection hs2w with heeq
  subst hseq
  subst heeq
  subst hr
  unfold calcBody
  rw [if_neg (by simp [hns])]
  constructor
  · rfl
  · intro hall
    exact extSum_nonneg inp.extensions hall

/-- C5, amended, witness: extensions "3", blank and "abc" sum to the
fold value, and all-parse-nonnegative entries give a nonnegative
total. -/
theorem C5_witness :
    (resultOf inpC5W).extensionDays = extSum inpC5W.extensions ∧
    ((∀ x ∈ inpC5W.extensions, 0 ≤ (jsParseInt x.days).getD 0) →
      0 ≤ (resultOf inpC5W).extensionDays) :=
  C5_amended inpC5W (resultOf inpC5W) 19730 19737 (by rfl) (by rfl) (by rfl)
    (by decide)

/-- C6: when the trigger is non-working and every day of
`[trigger, decision]` is non-working, a successful calculation is the
all-zero short-circuit result: zero elapsed, hold, extension and final
days, no overtime, no per-period breakdown — no Day 0 adjustment is
performed. -/
theorem C6_shortCircuit (inp : Input) (r : CalculationResult) (s e : Int)
    (h : calculateResult inp = Except.ok r)
    (hs1 : inp.startDate = some s) (hs2 : inp.endDate = some e)
    (hnw : ∀ d : Int, s ≤ d → d ≤ e →
      isWorkingDay inp.nonWorkingDays d = false) :
    r.totalDays = 0 ∧ r.holdDays = 0 ∧ r.extensionDays = 0 ∧
    r.finalDays = 0 ∧ r.isOvertime = false ∧ r.rawHoldDays = 0 ∧
    r.details.holdPeriodDetails = [] := by
  obtain ⟨s2, e2, hs1w, hs2w, hlt, _, hr⟩ := calculateResult_ok inp r h
  rw [hs1] at hs1w
  rw [hs2] at hs2w
  injection hs1w with hseq
  injection hs2w with heeq
  subst hseq
  subst heeq
  subst hr
  have hse : s ≤ e := by omega
  have hw : isWorkingDay inp.nonWorkingDays s = false := hnw s (le_refl s) hse
  have hpe : isPeriodEntirelyNonWorking inp.nonWorkingDays s e = true :=
    (isPeriodEntirelyNonWorking_iff _ s e).mpr hnw
  unfold calcBody
  rw [if_pos (by simp [hw, hpe])]
  exact ⟨rfl, rfl, rfl, rfl, rfl, rfl, rfl⟩

/-- C6, witness: spec scenario C in miniature — lodged Saturday, decided
Sunday, so every day in range is non-working and the result is all
zero. -/
theorem C6_witness :
    (resultOf inpC6).totalDays = 0 ∧ (resultOf inpC6).holdDays = 0 ∧
    (resultOf inpC6).extensionDays = 0 ∧ (resultOf inpC6).finalDays = 0 ∧
    (resultOf inpC6).isOvertime = false ∧ (resultOf inpC6).rawHoldDays = 0 ∧
    (resultOf inpC6).details.holdPeriodDetails = [] :=
  C6_shortCircuit inpC6 (resultOf inpC6) 19728 19729 (by rfl) (by rfl) (by rfl)
    (by
      intro d h1 h2
      have hd : d = 19728 ∨ d = 19729 := by omega
      rcases hd with hd | hd <;> subst hd <;> decide)

/-- C10: when the all-non-working short-circuit fires, the returned
`maxDays` is the base allowance alone and the extension total is zero —
extensions are ignored — whereas on the normal path
`maxDays = base + extension total`. -/
theorem C10_shortCircuit_maxDays (inp : Input) (r : CalculationResult)
    (s e : Int) (h : calculateResult inp = Except.ok r)
    (hs1 : inp.startDate = some s) (hs2 : inp.endDate = some e) :
    ((!isWorkingDay inp.nonWorkingDays s &&
        isPeriodEntirelyNonWorking inp.nonWorkingDays s e) = true →
      r.maxDays = baseDays inp.applicationType ∧ r.extensionDays = 0) ∧
    ((!isWorkingDay inp.nonWorkingDays s &&
        isPeriodEntirelyNonWorking inp.nonWorkingDays s e) = false →
      r.maxDays = baseDays inp.applicationType + extSum inp.extensions) := by
  obtain ⟨s2, e2, hs1w, hs2w, _, _, hr⟩ := calculateResult_ok inp r h
  rw [hs1] at hs1w
  rw [hs2] at hs2w
  injection hs1w with hseq
  injection hs2w with heeq
  subst hseq
  subst heeq
  subst hr
  unfold calcBody
  constructor
  · intro hsc
    rw [if_pos (by rw [hsc])]
    exact ⟨rfl, rfl⟩
  · intro hsc
    rw [if_neg (by simp [hsc])]

/-- C10, witness: an all-non-working weekend span with a "7"-day
extension present still reports `maxDays = 20` (the standard base) and a
zero extension total. -/
theorem C10_witness :
    ((!isWorkingDay inpC10.nonWorkingDays 19728 &&
        isPeriodEntirelyNonWorking inpC10.nonWorkingDays 19728 19729) = true →
      (resultOf inpC10).maxDays = baseDays inpC10.applicationType ∧
      (resultOf inpC10).extensionDays = 0) ∧
    ((!isWorkingDay inpC10.nonWorkingDays 19728 &&
        isPeriodEntirelyNonWorking inpC10.nonWorkingDays 19728 19729) = false →
      (resultOf inpC10).maxDays
        = baseDays inpC10.applicationType + extSum inpC10.extensions) :=
  C10_shortCircuit_maxDays inpC10 (resultOf inpC10) 19728 19729 (by rfl)
    (by rfl) (by rfl)

/-- The clamping flag of the normal path, as a function of the elapsed
counters, equals "raw hold total exceeds elapsed": the summary-clamp
branch can only fire when the hold clamp already fired, because the
three statutory counters partition the `[Day0+1, decision]` range. -/
theorem wasClamped_iff (hs : List Int) (adj e total we ho raw : Int)
    (hadjle : adj ≤ e) (hsum : total + we + ho = e - adj) :
    ((if (if e < adj + 1 then (⟨0, 0, 0⟩ : CalendarStats)
          else calculateCalendarStatsForDisplay hs (adj + 1) e).totalCalendarDays
          = 0 then
        (if total - min raw total < 0 then true else decide (min raw total < raw))
      else if we + ho + raw > (if e < adj + 1 then (⟨0, 0, 0⟩ : CalendarStats)
          else calculateCalendarStatsForDisplay hs (adj + 1) e).totalCalendarDays
        then true
        else (if total - min raw total < 0 then true
          else decide (min raw total < raw))) = true)
      ↔ total < raw := by
  by_cases hcal : e < adj + 1
  · rw [if_pos hcal]
    rw [if_pos (show ((⟨0, 0, 0⟩ : CalendarStats)).totalCalendarDays = 0 from rfl)]
    split_ifs with h1
    · constructor
      · intro _
        omega
      · intro _
        rfl
    · rw [decide_eq_true_eq]
      constructor <;> intro <;> omega
  · rw [if_neg hcal]
    have hN : (calculateCalendarStatsForDisplay hs (adj + 1) e).totalCalendarDays
        = e - (adj + 1) + 1 := by
      unfold calculateCalendarStatsForDisplay
      rw [if_neg hcal]
    rw [hN]
    rw [if_neg (show ¬(e - (adj + 1) + 1 = 0) by omega)]
    by_cases hrs : we + ho + raw > e - (adj + 1) + 1
    · rw [if_pos hrs]
      constructor
      · intro _
        omega
      · intro _
        rfl
    · rw [if_neg hrs]
      split_ifs with h1
      · constructor
        · intro _
          omega
        · intro _
          rfl
      · rw [decide_eq_true_eq]
        constructor <;> intro <;> omega

/-- C8: every successful calculation reports a hold-day total equal to
`min(raw merged hold total, elapsed working days)`, and its
clamping-occurred flag is set exactly when the raw merged hold total
exceeds the elapsed working days. -/
theorem C8_clamp (inp : Input) (r : CalculationResult)
    (h : calculateResult inp = Except.ok r) :
    r.holdDays = min r.rawHoldDays r.totalDays ∧
    (r.wasExcludedDaysClamped = true ↔ r.totalDays < r.rawHoldDays) := by
  obtain ⟨s, e, _, _, hlt, _, hr⟩ := calculateResult_ok inp r h
  subst hr
  have hse : s ≤ e := by omega
  unfold calcBody
  by_cases hsc : (!isWorkingDay inp.nonWorkingDays s &&
      isPeriodEntirelyNonWorking inp.nonWorkingDays s e) = true
  · rw [if_pos hsc]
    constructor
    · simp [zeroResult]
    · simp [zeroResult]
  · rw [if_neg hsc]
    simp only []
    have hscf : (!isWorkingDay inp.nonWorkingDays s &&
        isPeriodEntirelyNonWorking inp.nonWorkingDays s e) = false := by
      simpa using hsc
    have hadjle : adjustedStartOf inp.nonWorkingDays s e ≤ e :=
      (adjustedStartOf_bounds inp.nonWorkingDays s e hse
        (exists_working_of_not_shortCircuit inp.nonWorkingDays s e hse hscf)).2
    have hsum := cwd_skip_sum inp.nonWorkingDays
      (adjustedStartOf inp.nonWorkingDays s e) e hadjle
    constructor
    · trivial
    · exact wasClamped_iff inp.nonWorkingDays
        (adjustedStartOf inp.nonWorkingDays s e) e _ _ _ _ hadjle hsum

/-- C8, witness: a hold period spanning Day 0 and the decision day has an
inclusive count of 2 against an elapsed count of 1, so the reported
total is the clamped minimum and the flag is set. -/
theorem C8_witness :
    (resultOf inpC8).holdDays
        = min (resultOf inpC8).rawHoldDays (resultOf inpC8).totalDays ∧
      ((resultOf inpC8).wasExcludedDaysClamped = true ↔
        (resultOf inpC8).totalDays < (resultOf inpC8).rawHoldDays) :=
  C8_clamp inpC8 (resultOf inpC8) (by rfl)
